import Mathlib

/-!
Verification of the `uxr_analysis` pipeline (uploader, transcription monitor,
processor, summarizer, scorer) against its natural-language specification.
Each Python function relevant to the claims is shallowly embedded as an
executable Lean definition; external effects (S3 puts, Transcribe submissions,
the `ailly` tool, the wall clock) are passed in as explicit oracles/parameters.
-/

namespace UxrAnalysis

/-! ## Uploader.sanitize_s3_key (uploader.py:189-196)

`re.sub(r"[^a-zA-Z0-9-_.!*'()/]", "_", key)`: the regex class matches a
single character, so the substitution is a character-wise map that keeps
characters in the allowed class and replaces every other character by `_`. -/

/-- Membership in the regex character class `[a-zA-Z0-9-_.!*'()/]`. -/
def allowedChar (c : Char) : Bool :=
  (('a' ≤ c && c ≤ 'z') || ('A' ≤ c && c ≤ 'Z') || ('0' ≤ c && c ≤ '9') ||
   c == '-' || c == '_' || c == '.' || c == '!' || c == '*' ||
   c == '\'' || c == '(' || c == ')' || c == '/')

/-- One character of the substitution: kept if allowed, `_` otherwise. -/
def substChar (c : Char) : Char :=
  if allowedChar c then c else '_'

/-- `Uploader.sanitize_s3_key`. -/
def sanitize_s3_key (key : String) : String :=
  ⟨key.data.map substChar⟩

/-! ## The remote output locator (uploader.py:326-330)

`output_key = f"transcriptions/completed/{sanitize_s3_key(file_name.replace('.mp4', '.json'))}"`

Python's `str.replace` substitutes every occurrence of the pattern,
left-to-right and non-overlapping.  It is embedded on character lists with
an explicit fuel argument (the list length) so that it is structurally
recursive; an empty pattern leaves the string unchanged (the call site only
ever uses the pattern `".mp4"`). -/

def pyReplaceAux (pat rep : List Char) : Nat → List Char → List Char
  | _, [] => []
  | 0, s => s
  | fuel + 1, c :: cs =>
    if pat.isPrefixOf (c :: cs) && !pat.isEmpty then
      rep ++ pyReplaceAux pat rep fuel ((c :: cs).drop pat.length)
    else
      c :: pyReplaceAux pat rep fuel cs

/-- Python `s.replace(pat, rep)`. -/
def pyReplace (s pat rep : String) : String :=
  ⟨pyReplaceAux pat.data rep.data s.data.length s.data⟩

/-- The output key computed for a file name in `upload_videos`. -/
def outputKeyOf (file_name : String) : String :=
  "transcriptions/completed/" ++ sanitize_s3_key (pyReplace file_name ".mp4" ".json")

/-! ## TranscriptionJobMonitor.calculate_completion_percentage
(monitor_transcription.py:73-95)

Numeric values are modelled as rationals; `elapsed_time` (wall-clock seconds
since the recorded start time, `time.time() - start_time.timestamp()` in the
source) is passed as a parameter.  Python raises `ZeroDivisionError` when
`estimated_duration` is `0.0`, so the embedding returns `Option`: `none`
is the raised exception. -/

def calculate_completion_percentage (job_status : String) (size_in_mb : ℚ)
    (elapsed_time : ℚ) : Option ℚ :=
  if job_status = "COMPLETED" then
    some 100
  else if job_status = "IN_PROGRESS" then
    let estimated_duration := size_in_mb * (3 / 2)
    if estimated_duration = 0 then none
    else some (min (elapsed_time / estimated_duration * 100) 99)
  else if job_status = "FAILED" then
    some 0
  else
    some 0

/-! ## Scorer.strip_graymatter (scorer.py:24-39)

The file's lines (as produced by `readlines`, so each line keeps its
newline) are folded with an `inside_graymatter` flag: a line whose
`strip()` equals `---` toggles the flag and is dropped; any other line is
kept exactly when the flag is clear.  Python's `str.strip()` removes
whitespace from both ends; it is embedded with `dropWhile` on the
character list. -/

/-- Python `line.strip()`. -/
def pyStrip (s : String) : String :=
  ⟨((s.data.dropWhile Char.isWhitespace).reverse.dropWhile Char.isWhitespace).reverse⟩

/-- `line.strip() == '---'`: the header-delimiter test. -/
def isMarker (l : String) : Bool :=
  pyStrip l == "---"

/-- The loop of `strip_graymatter`, carrying the `inside_graymatter` flag. -/
def stripLines (inside : Bool) : List String → List String
  | [] => []
  | l :: ls =>
    if isMarker l then stripLines (!inside) ls
    else if inside then stripLines inside ls
    else l :: stripLines inside ls

/-- `Scorer.strip_graymatter`, as the transformation it applies to the
file's list of lines (the flag starts clear). -/
def strip_graymatter (lines : List String) : List String :=
  stripLines false lines

/-! ## Processor.parse_transcript and process_transcripts
(processor.py:74-96, 112-128)

A downloaded transcript document is
`{"results": {"transcripts": [{"transcript": ...}, ...]}}`; missing keys
default to `{}`/`[]`/`""` via `dict.get`.  `parse_transcript` joins the
segments with `" ".join` and writes the result to the parsed path for the
object's base name.  The local file system is modelled as a partial map
from paths to contents. -/

/-- One entry of the `transcripts` array; `none` models an absent
`"transcript"` key (`t.get("transcript", "")`). -/
structure TranscriptSeg where
  transcript : Option String

/-- The downloaded transcript document, reduced to the fields the parser
reads: `data.get("results", {}).get("transcripts", [])`. -/
structure TranscriptDoc where
  transcripts : List TranscriptSeg

/-- The text `parse_transcript` writes:
`" ".join([t.get("transcript", "") for t in transcripts])`. -/
def parse_transcript (d : TranscriptDoc) : String :=
  String.intercalate " " (d.transcripts.map (fun t => t.transcript.getD ""))

/-- Modelled from the spec: "concatenating all transcript segments (in
document order) with single-space separators" — the spec-side join, stated
recursively, to be compared with the source's `" ".join`. -/
def joinWithSep (sep : String) : List String → String
  | [] => ""
  | [a] => a
  | a :: rest => a ++ sep ++ joinWithSep sep rest

/-- `os.path.basename` for S3 keys: the part after the last `/`. -/
def baseName (key : String) : String :=
  ⟨((key.data.reverse.takeWhile (fun c => c ≠ '/'))).reverse⟩

/-- The effect of one iteration of `process_transcripts` on the local file
system for a completed object `key`: download it (staging copy elided) and
write the parsed text at the parsed path for the object's base name,
overwriting whatever was there. -/
def processObject (remote : String → TranscriptDoc) (parsedDir key : String)
    (fs : String → Option String) : String → Option String :=
  fun p =>
    if p = parsedDir ++ baseName key then some (parse_transcript (remote key))
    else fs p

/-! ## Uploader.upload_videos state model (uploader.py:281-416)

The state document `uxr_config.json` is the `Config` below; a File Record
is one entry of its `files` array, with `Option` fields for the keys that
may be absent from the dict.  The two batch loops of `upload_videos` are
embedded with the remote side effects as oracles: `uploadTime name` is
`some t` when the S3 upload succeeds in `t` seconds and `none` when
`upload_file_to_s3` raises (the exception is caught and logged,
uploader.py:349-350); `submitJob name` is `some (jobName, startTime)` when
`start_transcription_job` succeeds and `none` when it raises (caught and
logged, uploader.py:389-392).  Both loops count attempted remote calls. -/

structure FileRec where
  file_name : String
  file_size : Nat
  media_uri : String
  output_key : String
  upload_time : Option ℚ
  job_name : Option String
  start_time : Option String

structure Config where
  bucket_name : Option String
  files : List FileRec

/-- Contiguous containment of `needle` in a character list: the Boolean
version of Python's `needle in haystack` for strings. -/
def containsSub (needle : List Char) : List Char → Bool
  | [] => needle.isEmpty
  | c :: t => needle.isPrefixOf (c :: t) || containsSub needle t

/-- `bucket_name in self.config_data.get("bucket_name", "")`: Python string
containment is substring containment. -/
def bucketRecorded (bucket : String) (cfg : Config) : Bool :=
  containsSub bucket.data ((cfg.bucket_name.getD "").data)

/-- `file_name in existing_files`, where
`existing_files = {f["file_name"] for f in files if "upload_time" in f}`
is computed from the configuration before the loop (uploader.py:307-311). -/
def inExistingFiles (cfg : Config) (name : String) : Bool :=
  cfg.files.any (fun r => r.upload_time.isSome && r.file_name == name)

/-- The upload condition of uploader.py:317-320:
`bucket_name not in config.get("bucket_name", "") or file_name not in existing_files`. -/
def shouldUpload (bucket : String) (cfg : Config) (name : String) : Bool :=
  !(bucketRecorded bucket cfg) || !(inExistingFiles cfg name)

/-- The File Record appended after a successful upload (uploader.py:332-339):
it always carries an upload duration and never a job identifier. -/
def mkFileRec (bucket name : String) (size : Nat) (t : ℚ) : FileRec :=
  { file_name := name
    file_size := size
    media_uri := "s3://" ++ bucket ++ "/transcriptions/" ++ name
    output_key := outputKeyOf name
    upload_time := some t
    job_name := none
    start_time := none }

/-- The upload loop (uploader.py:316-352) over the local `.mp4` files,
returning (new File Records in order, number of `put` calls attempted,
file names whose upload failed and was logged).  The skip predicate reads
the configuration as it was before the loop, exactly as the source
freezes `existing_files` and never changes `bucket_name` inside it. -/
def uploadLoop (uploadTime : String → Option ℚ) (bucket : String) (cfg : Config) :
    List (String × Nat) → List FileRec × Nat × List String
  | [] => ([], 0, [])
  | f :: fs =>
    let rest := uploadLoop uploadTime bucket cfg fs
    if shouldUpload bucket cfg f.1 then
      match uploadTime f.1 with
      | some t => (mkFileRec bucket f.1 f.2 t :: rest.1, rest.2.1 + 1, rest.2.2)
      | none => (rest.1, rest.2.1 + 1, f.1 :: rest.2.2)
    else rest

/-- The job-submission loop (uploader.py:370-392) over all File Records,
returning (updated records in order, number of `submit` calls attempted,
file names whose submission failed and was logged).  A record with a job
identifier is skipped; otherwise a job is started and, on success, the
record gains the job identifier and start time. -/
def submitLoop (submitJob : String → Option (String × String)) :
    List FileRec → List FileRec × Nat × List String
  | [] => ([], 0, [])
  | r :: rs =>
    let rest := submitLoop submitJob rs
    if r.job_name.isSome then (r :: rest.1, rest.2.1, rest.2.2)
    else
      match submitJob r.file_name with
      | some js =>
        ({ r with job_name := some js.1, start_time := some js.2 } :: rest.1,
          rest.2.1 + 1, rest.2.2)
      | none => (r :: rest.1, rest.2.1 + 1, r.file_name :: rest.2.2)

structure UploadVideosOutcome where
  cfg : Config
  puts : Nat
  submits : Nat
  errors : List String

/-- The state-mutating core of `Uploader.upload_videos` after the operator
confirms: the upload loop appends its new records to `files`, then the
submission loop runs over the whole `files` array. -/
def upload_videos (uploadTime : String → Option ℚ)
    (submitJob : String → Option (String × String)) (bucket : String)
    (localFiles : List (String × Nat)) (cfg : Config) : UploadVideosOutcome :=
  let u := uploadLoop uploadTime bucket cfg localFiles
  let s := submitLoop submitJob (cfg.files ++ u.1)
  { cfg := { bucket_name := cfg.bucket_name, files := s.1 }
    puts := u.2.1
    submits := s.2.1
    errors := u.2.2 ++ s.2.2 }

/-! ## Uploader.create_s3_bucket (uploader.py:122-138)

The remote call's outcome is passed in; `BucketAlreadyExists` is caught
and only logged as a warning, any other exception is logged and re-raised
(`Except.error`).  `bucket_name` is written to the configuration only on
the successful-creation path. -/

inductive CreateBucketResult where
  | created
  | bucketAlreadyExists
  | otherError (msg : String)

def create_s3_bucket (result : CreateBucketResult) (bucket : String)
    (cfg : Config) : Except String Config :=
  match result with
  | CreateBucketResult.created => Except.ok { cfg with bucket_name := some bucket }
  | CreateBucketResult.bucketAlreadyExists => Except.ok cfg
  | CreateBucketResult.otherError msg => Except.error msg

/-! ## Summarizer.summarize_transcripts batch loop (summarizer.py:92-136)

For each transcript `t` the loop writes the scratch prompt files
`20_<t>.md` and `30_analysis_<t>.md`, runs `npx ailly` (which on success
produces `30_analysis_<t>.md.ailly.md`; `subprocess.run` is not checked),
then `shutil.move`s that artifact to the results directory — raising
`FileNotFoundError` if the tool did not produce it — and only after a
successful move deletes the scratch files with numeric prefixes `20_`/
`30_`.  The scratch directory is a list of file names; `toolOk t` is the
oracle for whether the tool produced its output artifact.  An exception
escapes the loop (there is no handler), so the embedding returns
`Except.error` carrying the failing transcript and the state at failure. -/

structure GenState where
  scratch : List String
  results : List String

/-- The output artifact name the tool produces for transcript `t`. -/
def ailly_output (t : String) : String :=
  "30_analysis_" ++ t ++ ".md.ailly.md"

/-- One iteration of the summarize loop for transcript `t`. -/
def summarizeOne (toolOk : Bool) (t : String) (s : GenState) :
    Except (String × GenState) GenState :=
  let s1 : GenState :=
    { s with scratch := s.scratch ++ ["20_" ++ t ++ ".md", "30_analysis_" ++ t ++ ".md"] }
  let s2 : GenState :=
    if toolOk then { s1 with scratch := s1.scratch ++ [ailly_output t] } else s1
  if ailly_output t ∈ s2.scratch then
    Except.ok
      { scratch := (s2.scratch.erase (ailly_output t)).filter
          (fun f => !(f.startsWith "20_" || f.startsWith "30_"))
        results := s2.results ++ [t] }
  else
    Except.error (t, s2)

/-- The whole batch: an uncaught exception in one iteration aborts the
remaining transcripts. -/
def summarizeBatch (toolOk : String → Bool) :
    List String → GenState → Except (String × GenState) GenState
  | [], s => Except.ok s
  | t :: ts, s =>
    match summarizeOne (toolOk t) t s with
    | Except.ok s2 => summarizeBatch toolOk ts s2
    | Except.error e => Except.error e

/-- A fully-populated File Record, as left behind by a completed run:
upload duration and job identifier both present. -/
def rerunFileRec : FileRec :=
  { file_name := "a.mp4"
    file_size := 5
    media_uri := "s3://b/transcriptions/a.mp4"
    output_key := outputKeyOf "a.mp4"
    upload_time := some 2
    job_name := some "job-1"
    start_time := some "2024-01-01T00:00:00" }

/-- A state whose record set is complete but whose `bucket_name` was never
persisted (the tolerated "bucket already exists" path, uploader.py:134-135,
does not write it). -/
def rerunCfgNoBucket : Config :=
  { bucket_name := none, files := [rerunFileRec] }

/-- The same complete record set with the bucket name recorded. -/
def rerunCfgWithBucket : Config :=
  { bucket_name := some "b", files := [rerunFileRec] }

/-! ## Helper lemmas -/

theorem stripLines_append_of_no_marker {pre : List String}
    (hpre : ∀ l ∈ pre, isMarker l = false) (xs : List String) :
    stripLines false (pre ++ xs) = pre ++ stripLines false xs := by
  induction pre with
  | nil => rfl
  | cons a t ih =>
    have ha : isMarker a = false := hpre a (List.mem_cons_self a t)
    have ht : ∀ l ∈ t, isMarker l = false := fun l hl => hpre l (List.mem_cons_of_mem a hl)
    show stripLines false (a :: (t ++ xs)) = a :: (t ++ stripLines false xs)
    rw [stripLines, if_neg (by simp [ha]), if_neg (by simp), ih ht]

theorem stripLines_inside_of_no_marker {hdr : List String}
    (hhdr : ∀ l ∈ hdr, isMarker l = false) (xs : List String) :
    stripLines true (hdr ++ xs) = stripLines true xs := by
  induction hdr with
  | nil => rfl
  | cons a t ih =>
    have ha : isMarker a = false := hhdr a (List.mem_cons_self a t)
    have ht : ∀ l ∈ t, isMarker l = false := fun l hl => hhdr l (List.mem_cons_of_mem a hl)
    show stripLines true (a :: (t ++ xs)) = stripLines true xs
    rw [stripLines, if_neg (by simp [ha]), if_pos rfl, ih ht]

theorem stripLines_marker {m : String} (hm : isMarker m = true)
    (b : Bool) (xs : List String) :
    stripLines b (m :: xs) = stripLines (!b) xs := by
  rw [stripLines, if_pos (by simp [hm])]

theorem stripLines_inside_nil {rest : List String}
    (hrest : ∀ l ∈ rest, isMarker l = false) :
    stripLines true rest = [] := by
  have h := stripLines_inside_of_no_marker hrest []
  rwa [List.append_nil] at h

theorem allowedChar_substChar (c : Char) : allowedChar (substChar c) = true := by
  unfold substChar
  split
  · assumption
  · decide

theorem substChar_substChar (c : Char) : substChar (substChar c) = substChar c := by
  unfold substChar
  split
  · rfl
  · decide

theorem mem_zip_self_map {f : Char → Char} :
    ∀ (l : List Char) (p : Char × Char), p ∈ l.zip (l.map f) → p.2 = f p.1 := by
  intro l
  induction l with
  | nil => simp
  | cons a t ih =>
    intro p hp
    rw [List.map_cons, List.zip_cons_cons, List.mem_cons] at hp
    rcases hp with h | h
    · rw [h]
    · exact ih p h

theorem string_append_left_cancel {p s t : String} (h : p ++ s = p ++ t) : s = t := by
  have hd : p.data ++ s.data = p.data ++ t.data := by
    rw [← String.data_append, ← String.data_append, h]
  exact String.ext (List.append_cancel_left hd)

theorem joinWithSep_cons_append (sep x a : String) (as : List String) :
    joinWithSep sep ((x ++ sep ++ a) :: as) = x ++ sep ++ joinWithSep sep (a :: as) := by
  cases as with
  | nil => rfl
  | cons b bs =>
    show (x ++ sep ++ a) ++ sep ++ joinWithSep sep (b :: bs)
      = x ++ sep ++ (a ++ sep ++ joinWithSep sep (b :: bs))
    simp only [String.append_assoc]

theorem intercalate_go_eq (sep : String) :
    ∀ (as : List String) (x : String),
      String.intercalate.go x sep as = joinWithSep sep (x :: as) := by
  intro as
  induction as with
  | nil => intro x; rfl
  | cons a t ih =>
    intro x
    show String.intercalate.go (x ++ sep ++ a) sep t = joinWithSep sep (x :: a :: t)
    rw [ih (x ++ sep ++ a), joinWithSep_cons_append]
    rfl

theorem intercalate_eq_joinWithSep (sep : String) (l : List String) :
    String.intercalate sep l = joinWithSep sep l := by
  cases l with
  | nil => rfl
  | cons a t =>
    show String.intercalate.go a sep t = joinWithSep sep (a :: t)
    exact intercalate_go_eq sep t a

theorem uploadLoop_cons (uploadTime : String → Option ℚ) (bucket : String)
    (cfg : Config) (f : String × Nat) (fs : List (String × Nat)) :
    uploadLoop uploadTime bucket cfg (f :: fs) =
      if shouldUpload bucket cfg f.1 then
        match uploadTime f.1 with
        | some t =>
          (mkFileRec bucket f.1 f.2 t :: (uploadLoop uploadTime bucket cfg fs).1,
            (uploadLoop uploadTime bucket cfg fs).2.1 + 1,
            (uploadLoop uploadTime bucket cfg fs).2.2)
        | none =>
          ((uploadLoop uploadTime bucket cfg fs).1,
            (uploadLoop uploadTime bucket cfg fs).2.1 + 1,
            f.1 :: (uploadLoop uploadTime bucket cfg fs).2.2)
      else uploadLoop uploadTime bucket cfg fs := rfl

theorem submitLoop_cons (submitJob : String → Option (String × String))
    (q : FileRec) (qs : List FileRec) :
    submitLoop submitJob (q :: qs) =
      if q.job_name.isSome then
        (q :: (submitLoop submitJob qs).1, (submitLoop submitJob qs).2.1,
          (submitLoop submitJob qs).2.2)
      else
        match submitJob q.file_name with
        | some js =>
          ({ q with job_name := some js.1, start_time := some js.2 }
              :: (submitLoop submitJob qs).1,
            (submitLoop submitJob qs).2.1 + 1, (submitLoop submitJob qs).2.2)
        | none =>
          (q :: (submitLoop submitJob qs).1, (submitLoop submitJob qs).2.1 + 1,
            q.file_name :: (submitLoop submitJob qs).2.2) := rfl

theorem upload_videos_eq (uploadTime : String → Option ℚ)
    (submitJob : String → Option (String × String)) (bucket : String)
    (localFiles : List (String × Nat)) (cfg : Config) :
    upload_videos uploadTime submitJob bucket localFiles cfg =
      { cfg := { bucket_name := cfg.bucket_name
                 files := (submitLoop submitJob
                  (cfg.files ++ (uploadLoop uploadTime bucket cfg localFiles).1)).1 }
        puts := (uploadLoop uploadTime bucket cfg localFiles).2.1
        submits := (submitLoop submitJob
          (cfg.files ++ (uploadLoop uploadTime bucket cfg localFiles).1)).2.1
        errors := (uploadLoop uploadTime bucket cfg localFiles).2.2 ++
          (submitLoop submitJob
            (cfg.files ++ (uploadLoop uploadTime bucket cfg localFiles).1)).2.2 } := rfl

theorem uploadLoop_all_skipped (uploadTime : String → Option ℚ) {bucket : String}
    {cfg : Config} (hb : bucketRecorded bucket cfg = true)
    {localFiles : List (String × Nat)}
    (hup : ∀ f ∈ localFiles, inExistingFiles cfg f.1 = true) :
    uploadLoop uploadTime bucket cfg localFiles = ([], 0, []) := by
  induction localFiles with
  | nil => rfl
  | cons f fs ih =>
    have h1 : inExistingFiles cfg f.1 = true := hup f (List.mem_cons_self f fs)
    have hs : shouldUpload bucket cfg f.1 = false := by
      rw [shouldUpload, hb, h1]
      rfl
    rw [uploadLoop_cons, hs, ih (fun g hg => hup g (List.mem_cons_of_mem f hg))]
    rfl

theorem submitLoop_all_skipped (submitJob : String → Option (String × String))
    {files : List FileRec} (hjobs : ∀ r ∈ files, r.job_name.isSome = true) :
    submitLoop submitJob files = (files, 0, []) := by
  induction files with
  | nil => rfl
  | cons q qs ih =>
    have h1 : q.job_name.isSome = true := hjobs q (List.mem_cons_self q qs)
    rw [submitLoop_cons, h1, ih (fun g hg => hjobs g (List.mem_cons_of_mem q hg))]
    rfl

theorem uploadLoop_new_records_uploaded (uploadTime : String → Option ℚ)
    (bucket : String) (cfg : Config) :
    ∀ localFiles, ∀ r ∈ (uploadLoop uploadTime bucket cfg localFiles).1,
      r.upload_time.isSome = true := by
  intro localFiles
  induction localFiles with
  | nil =>
    intro r hr
    cases hr
  | cons f fs ih =>
    intro r hr
    rw [uploadLoop_cons] at hr
    by_cases hs : shouldUpload bucket cfg f.1
    · rw [if_pos hs] at hr
      cases ho : uploadTime f.1 with
      | some t =>
        rw [ho] at hr
        rcases List.mem_cons.mp hr with h | h
        · rw [h]
          rfl
        · exact ih r h
      | none =>
        rw [ho] at hr
        exact ih r hr
    · rw [if_neg hs] at hr
      exact ih r hr

theorem submitLoop_records_spec (submitJob : String → Option (String × String)) :
    ∀ files : List FileRec, (∀ r ∈ files, r.upload_time.isSome = true) →
      ∀ r ∈ (submitLoop submitJob files).1,
        r.upload_time.isSome = true ∧
        (r.job_name.isSome = true ∨ r.file_name ∈ (submitLoop submitJob files).2.2) := by
  intro files
  induction files with
  | nil =>
    intro _ r hr
    cases hr
  | cons q qs ih =>
    intro hall r hr
    have hq : q.upload_time.isSome = true := hall q (List.mem_cons_self q qs)
    have hqs : ∀ g ∈ qs, g.upload_time.isSome = true :=
      fun g hg => hall g (List.mem_cons_of_mem q hg)
    by_cases hj : q.job_name.isSome = true
    · rw [submitLoop_cons, if_pos hj] at hr ⊢
      rcases List.mem_cons.mp hr with h | h
      · rw [h]
        exact ⟨hq, Or.inl hj⟩
      · exact ih hqs r h
    · rw [submitLoop_cons, if_neg hj] at hr ⊢
      cases ho : submitJob q.file_name with
      | some js =>
        simp only [ho] at hr ⊢
        rcases List.mem_cons.mp hr with h | h
        · rw [h]
          exact ⟨hq, Or.inl rfl⟩
        · exact ih hqs r h
      | none =>
        simp only [ho] at hr ⊢
        rcases List.mem_cons.mp hr with h | h
        · rw [h]
          exact ⟨hq, Or.inr (List.mem_cons_self _ _)⟩
        · rcases ih hqs r h with ⟨h1, h2 | h2⟩
          · exact ⟨h1, Or.inl h2⟩
          · exact ⟨h1, Or.inr (List.mem_cons_of_mem _ h2)⟩

theorem ailly_output_length (t : String) : (ailly_output t).length = t.length + 24 := by
  rw [ailly_output, String.length_append, String.length_append]
  rw [show ("30_analysis_" : String).length = 12 from rfl,
    show (".md.ailly.md" : String).length = 12 from rfl]
  omega

theorem summarizeOne_fails (t : String) (s : GenState)
    (hclean : ailly_output t ∉ s.scratch) :
    summarizeOne false t s = Except.error
      (t, { s with scratch :=
        s.scratch ++ ["20_" ++ t ++ ".md", "30_analysis_" ++ t ++ ".md"] }) := by
  have h20 : ailly_output t ≠ "20_" ++ t ++ ".md" := by
    intro h
    have hl := congrArg String.length h
    rw [ailly_output_length, String.length_append, String.length_append,
      show ("20_" : String).length = 3 from rfl,
      show (".md" : String).length = 3 from rfl] at hl
    omega
  have h30 : ailly_output t ≠ "30_analysis_" ++ t ++ ".md" := by
    intro h
    have hl := congrArg String.length h
    rw [ailly_output_length, String.length_append, String.length_append,
      show ("30_analysis_" : String).length = 12 from rfl,
      show (".md" : String).length = 3 from rfl] at hl
    omega
  have hmem : ailly_output t ∉
      s.scratch ++ ["20_" ++ t ++ ".md", "30_analysis_" ++ t ++ ".md"] := by
    intro h
    rcases List.mem_append.mp h with h | h
    · exact hclean h
    · rcases List.mem_cons.mp h with h | h
      · exact h20 h
      · rcases List.mem_cons.mp h with h | h
        · exact h30 h
        · cases h
  rw [summarizeOne]
  simp only [if_neg, Bool.false_eq_true, if_false]
  rw [if_neg hmem]

/-! ## Claim theorems: sanitizer and output locator -/

/-- C5: `sanitize_s3_key` is total on strings; every character of its output
lies in the allowed class, any disallowed input character is replaced by `_`
at its position, and the function is idempotent. -/
theorem sanitize_s3_key_spec (s : String) :
    (∀ c ∈ (sanitize_s3_key s).data, allowedChar c = true) ∧
    sanitize_s3_key (sanitize_s3_key s) = sanitize_s3_key s ∧
    (∀ p ∈ s.data.zip ((sanitize_s3_key s).data),
      allowedChar p.1 = false → p.2 = '_') := by
  refine ⟨?_, ?_, ?_⟩
  · intro c hc
    rw [sanitize_s3_key, List.mem_map] at hc
    obtain ⟨a, -, rfl⟩ := hc
    exact allowedChar_substChar a
  · apply String.ext
    show (((s.data.map substChar)).map substChar) = s.data.map substChar
    rw [List.map_map]
    exact List.map_congr_left fun c _ => substChar_substChar c
  · intro p hp hdis
    have h2 : p.2 = substChar p.1 := mem_zip_self_map s.data p hp
    rw [h2, substChar, hdis]
    simp

/-- C5 witness: concrete instances of the three conjuncts at `"a b.mp4"`:
idempotence, and the disallowed blank replaced by an underscore. -/
theorem sanitize_s3_key_spec_witness :
    sanitize_s3_key (sanitize_s3_key "a b.mp4") = sanitize_s3_key "a b.mp4" ∧
    (' ', '_').2 = '_' :=
  ⟨(sanitize_s3_key_spec "a b.mp4").2.1,
   (sanitize_s3_key_spec "a b.mp4").2.2 (' ', '_') (by decide) (by decide)⟩

/-- C3 counterexample: the output locator is NOT injective — the two distinct
file names `"a b.mp4"` and `"a_b.mp4"` receive the same output key, because
the blank is sanitized to `_`. -/
theorem outputKeyOf_collision :
    outputKeyOf "a b.mp4" = outputKeyOf "a_b.mp4" ∧ ("a b.mp4" : String) ≠ "a_b.mp4" := by
  constructor
  · decide
  · decide

/-- C3 amended: the output locator is a pure function of the file name alone
(it is a Lean function of the name, recomputable from the name), but it is
injective only up to sanitization: two file names receive the same output key
exactly when their transformed (`.mp4`→`.json`) names sanitize identically. -/
theorem outputKeyOf_eq_iff (a b : String) :
    outputKeyOf a = outputKeyOf b ↔
      sanitize_s3_key (pyReplace a ".mp4" ".json")
        = sanitize_s3_key (pyReplace b ".mp4" ".json") := by
  constructor
  · intro h
    exact string_append_left_cancel h
  · intro h
    rw [outputKeyOf, outputKeyOf, h]

/-! ## Claim theorems: completion percentage -/

/-- C4: the completion-percentage estimate returns exactly 100 for
`COMPLETED`, exactly 0 for `FAILED` and for any other status that is neither
terminal nor `IN_PROGRESS`, and for `IN_PROGRESS` (with positive file size)
returns `min (elapsed / (size * 1.5) * 100) 99` — in particular exactly 99
once `elapsed ≥ size * 1.5` and 0 at `elapsed = 0`. -/
theorem calculate_completion_percentage_spec (status : String) (size e : ℚ)
    (hsize : 0 < size) :
    calculate_completion_percentage "COMPLETED" size e = some 100 ∧
    calculate_completion_percentage "FAILED" size e = some 0 ∧
    (status ≠ "COMPLETED" → status ≠ "IN_PROGRESS" → status ≠ "FAILED" →
      calculate_completion_percentage status size e = some 0) ∧
    calculate_completion_percentage "IN_PROGRESS" size e
      = some (min (e / (size * (3 / 2)) * 100) 99) ∧
    (size * (3 / 2) ≤ e →
      calculate_completion_percentage "IN_PROGRESS" size e = some 99) ∧
    (e = 0 → calculate_completion_percentage "IN_PROGRESS" size e = some 0) := by
  have hd : 0 < size * (3 / 2) := by positivity
  have hne : size * (3 / 2) ≠ 0 := ne_of_gt hd
  have hinprog : calculate_completion_percentage "IN_PROGRESS" size e
      = some (min (e / (size * (3 / 2)) * 100) 99) := by
    show (if size * (3 / 2) = 0 then none
      else some (min (e / (size * (3 / 2)) * 100) 99))
        = some (min (e / (size * (3 / 2)) * 100) 99)
    rw [if_neg hne]
  refine ⟨rfl, rfl, ?_, hinprog, ?_, ?_⟩
  · intro h1 h2 h3
    rw [calculate_completion_percentage, if_neg h1, if_neg h2, if_neg h3]
  · intro he
    have h1 : (1 : ℚ) ≤ e / (size * (3 / 2)) := (one_le_div hd).mpr he
    have h99 : (99 : ℚ) ≤ e / (size * (3 / 2)) * 100 := by nlinarith
    rw [hinprog, min_eq_right h99]
  · intro he
    rw [hinprog, he]
    norm_num

/-- C4 witness: a 10 MB in-progress job 15 s after start is capped at 99;
at 0 s elapsed it reports 0; an unrecognized status reports 0. -/
theorem calculate_completion_percentage_spec_witness :
    calculate_completion_percentage "QUEUED" 10 15 = some 0 ∧
    calculate_completion_percentage "IN_PROGRESS" 10 15 = some 99 ∧
    calculate_completion_percentage "IN_PROGRESS" 10 0 = some 0 :=
  ⟨(calculate_completion_percentage_spec "QUEUED" 10 15 (by norm_num)).2.2.1
      (by decide) (by decide) (by decide),
   (calculate_completion_percentage_spec "QUEUED" 10 15 (by norm_num)).2.2.2.2.1
      (by norm_num),
   (calculate_completion_percentage_spec "QUEUED" 10 0 (by norm_num)).2.2.2.2.2 rfl⟩

/-- C9: at `size_in_MB = 0` the `IN_PROGRESS` estimate divides by zero
(Python raises `ZeroDivisionError`, modelled as `none`); for a nonnegative
size the `IN_PROGRESS` branch is defined exactly when the size is positive,
and every other status is always defined. -/
theorem calculate_completion_percentage_div_zero (size e : ℚ) (hsize : 0 ≤ size) :
    calculate_completion_percentage "IN_PROGRESS" 0 e = none ∧
    ((calculate_completion_percentage "IN_PROGRESS" size e).isSome ↔ 0 < size) ∧
    (∀ status : String, status ≠ "IN_PROGRESS" →
      (calculate_completion_percentage status size e).isSome) := by
  refine ⟨?_, ?_, ?_⟩
  · show (if (0 : ℚ) * (3 / 2) = 0 then none
      else some (min (e / ((0 : ℚ) * (3 / 2)) * 100) 99)) = (none : Option ℚ)
    norm_num
  · show (if size * (3 / 2) = 0 then none
      else some (min (e / (size * (3 / 2)) * 100) 99)).isSome ↔ 0 < size
    rcases eq_or_lt_of_le hsize with h | h
    · rw [← h]
      norm_num
    · rw [if_neg (by positivity)]
      simpa using h
  · intro status hst
    rw [calculate_completion_percentage]
    by_cases h1 : status = "COMPLETED"
    · rw [if_pos h1]
      rfl
    · rw [if_neg h1, if_neg hst]
      split_ifs <;> rfl

/-- C9 witness: a 0-byte in-progress job is undefined (raises); a 5 MB
in-progress job and a completed job are defined. -/
theorem calculate_completion_percentage_div_zero_witness :
    calculate_completion_percentage "IN_PROGRESS" 0 7 = none ∧
    (calculate_completion_percentage "IN_PROGRESS" 5 7).isSome ∧
    (calculate_completion_percentage "COMPLETED" 5 7).isSome :=
  ⟨(calculate_completion_percentage_div_zero 5 7 (by norm_num)).1,
   ((calculate_completion_percentage_div_zero 5 7 (by norm_num)).2.1).mpr (by norm_num),
   (calculate_completion_percentage_div_zero 5 7 (by norm_num)).2.2 "COMPLETED" (by decide)⟩

/-! ## Claim theorems: header stripping -/

/-- C7: header stripping over a list of lines — marker lines toggle the
inside-header flag and are dropped, lines inside a header are discarded, all
other lines are kept unchanged.  Consequently: content with no marker lines
is preserved verbatim; a complete marker-delimited block is removed with all
surrounding content preserved (and further blocks in the tail handled the
same way, covering any even number of markers); and an unterminated trailing
marker removes all text after it. -/
theorem strip_graymatter_spec (pre hdr rest tail : List String) (m m' : String)
    (hpre : ∀ l ∈ pre, isMarker l = false)
    (hhdr : ∀ l ∈ hdr, isMarker l = false)
    (hrest : ∀ l ∈ rest, isMarker l = false)
    (hm : isMarker m = true) (hm' : isMarker m' = true) :
    strip_graymatter pre = pre ∧
    strip_graymatter (pre ++ [m] ++ hdr ++ [m'] ++ tail)
      = pre ++ strip_graymatter tail ∧
    strip_graymatter (pre ++ [m] ++ rest) = pre := by
  refine ⟨?_, ?_, ?_⟩
  · have h := stripLines_append_of_no_marker hpre []
    rw [List.append_nil] at h
    rw [strip_graymatter, h]
    rw [show stripLines false [] = [] from rfl, List.append_nil]
  · show stripLines false (pre ++ [m] ++ hdr ++ [m'] ++ tail)
      = pre ++ stripLines false tail
    simp only [List.append_assoc, List.singleton_append, List.cons_append, List.nil_append]
    rw [stripLines_append_of_no_marker hpre, stripLines_marker hm, Bool.not_false,
      stripLines_inside_of_no_marker hhdr, stripLines_marker hm', Bool.not_true]
  · show stripLines false (pre ++ [m] ++ rest) = pre
    simp only [List.append_assoc, List.singleton_append, List.cons_append, List.nil_append]
    rw [stripLines_append_of_no_marker hpre, stripLines_marker hm, Bool.not_false,
      stripLines_inside_nil hrest, List.append_nil]

/-- C7 witness: one complete header block between two marker lines is
removed with the surrounding lines intact, and an unterminated marker
removes everything after it. -/
theorem strip_graymatter_spec_witness :
    strip_graymatter ["before\n", "---\n", "title: x\n", "---\n", "after\n"]
      = ["before\n"] ++ strip_graymatter ["after\n"] ∧
    strip_graymatter ["keep\n", "---\n", "lost\n"] = ["keep\n"] :=
  ⟨(strip_graymatter_spec ["before\n"] ["title: x\n"] [] ["after\n"] "---\n" "---\n"
      (by decide) (by decide) (by decide) (by decide) (by decide)).2.1,
   (strip_graymatter_spec ["keep\n"] [] ["lost\n"] [] "---\n" "---\n"
      (by decide) (by decide) (by decide) (by decide) (by decide)).2.2⟩

/-! ## Claim theorems: transcript parsing -/

/-- C8: `parse_transcript` writes exactly the transcript segments in
document order joined by single-space separators, and re-running the
Retrieval & Normalization step on the same remote completed object leaves
the local parsed output byte-identical (the second run overwrites the file
with the same content). -/
theorem parse_transcript_spec (remote : String → TranscriptDoc)
    (parsedDir key : String) (fs : String → Option String) :
    (∀ d : TranscriptDoc,
      parse_transcript d
        = joinWithSep " " (d.transcripts.map (fun t => t.transcript.getD ""))) ∧
    processObject remote parsedDir key (processObject remote parsedDir key fs)
      = processObject remote parsedDir key fs := by
  constructor
  · intro d
    rw [parse_transcript]
    exact intercalate_eq_joinWithSep " " (d.transcripts.map (fun t => t.transcript.getD ""))
  · funext p
    simp only [processObject]
    split_ifs <;> rfl

/-! ## Claim theorems: upload stage -/

/-- C1 counterexample: with an unchanged, fully-populated File Record set
(every record has an upload duration and a job identifier) but no
`bucket_name` recorded in the state — the reachable state the tolerated
"bucket already exists" path leaves behind — re-invoking the Upload Stage
performs 1 put call and 1 submit call, not zero: the skip condition is a
disjunction that re-uploads everything when the bucket check fails. -/
theorem upload_videos_rerun_counterexample :
    (∀ r ∈ rerunCfgNoBucket.files,
      r.upload_time.isSome = true ∧ r.job_name.isSome = true) ∧
    (upload_videos (fun _ => some 1) (fun _ => some ("job-2", "s")) "b"
      [("a.mp4", 5)] rerunCfgNoBucket).puts = 1 ∧
    (upload_videos (fun _ => some 1) (fun _ => some ("job-2", "s")) "b"
      [("a.mp4", 5)] rerunCfgNoBucket).submits = 1 := by
  refine ⟨?_, rfl, rfl⟩
  intro r hr
  rcases List.mem_cons.mp hr with h | h
  · rw [h]
    exact ⟨rfl, rfl⟩
  · cases h

/-- C1 amended: re-invoking the Upload Stage on an unchanged File Record
set performs zero additional put calls and zero additional submit calls —
provided the target bucket name is recorded in the state document (the
bucket-containment side of the skip condition), which holds whenever the
re-run reuses the recorded bucket.  Every file is then skipped for upload
by the upload-duration check, every record is skipped for submission by
the job-identifier check, and the state and error log are untouched. -/
theorem upload_videos_rerun_idempotent (uploadTime : String → Option ℚ)
    (submitJob : String → Option (String × String)) (bucket : String)
    (localFiles : List (String × Nat)) (cfg : Config)
    (hb : bucketRecorded bucket cfg = true)
    (hup : ∀ f ∈ localFiles, inExistingFiles cfg f.1 = true)
    (hjobs : ∀ r ∈ cfg.files, r.job_name.isSome = true) :
    (upload_videos uploadTime submitJob bucket localFiles cfg).puts = 0 ∧
    (upload_videos uploadTime submitJob bucket localFiles cfg).submits = 0 ∧
    (upload_videos uploadTime submitJob bucket localFiles cfg).cfg = cfg ∧
    (upload_videos uploadTime submitJob bucket localFiles cfg).errors = [] := by
  have h1 := uploadLoop_all_skipped uploadTime hb hup
  have h2 := submitLoop_all_skipped submitJob hjobs
  rw [upload_videos_eq, h1]
  simp only [List.append_nil]
  rw [h2]
  exact ⟨trivial, rfl, rfl, rfl⟩

/-- C1 witness: the amended theorem at a concrete one-file state whose
bucket is recorded: zero puts, zero submits. -/
theorem upload_videos_rerun_idempotent_witness :
    (upload_videos (fun _ => some 1) (fun _ => some ("job-2", "s")) "b"
      [("a.mp4", 5)] rerunCfgWithBucket).puts = 0 ∧
    (upload_videos (fun _ => some 1) (fun _ => some ("job-2", "s")) "b"
      [("a.mp4", 5)] rerunCfgWithBucket).submits = 0 :=
  ⟨(upload_videos_rerun_idempotent (fun _ => some 1) (fun _ => some ("job-2", "s"))
      "b" [("a.mp4", 5)] rerunCfgWithBucket (by decide) (by decide) (by decide)).1,
   (upload_videos_rerun_idempotent (fun _ => some 1) (fun _ => some ("job-2", "s"))
      "b" [("a.mp4", 5)] rerunCfgWithBucket (by decide) (by decide) (by decide)).2.1⟩

/-- C6: starting from any state whose records all carry an upload duration
(the only records this code ever creates), after the Upload Stage: while
the submission phase has not yet run, no record has a job identifier
without an upload duration; afterwards every record either has both the
upload duration and the job identifier or its file name is in the error
log (never exactly one of the two fields silently); and no final record
carries a job identifier without an upload duration. -/
theorem upload_videos_record_invariant (uploadTime : String → Option ℚ)
    (submitJob : String → Option (String × String)) (bucket : String)
    (localFiles : List (String × Nat)) (cfg : Config)
    (hinit : ∀ r ∈ cfg.files, r.upload_time.isSome = true) :
    (∀ r ∈ cfg.files ++ (uploadLoop uploadTime bucket cfg localFiles).1,
      r.job_name.isSome = true → r.upload_time.isSome = true) ∧
    (∀ r ∈ (upload_videos uploadTime submitJob bucket localFiles cfg).cfg.files,
      (r.upload_time.isSome = true ∧ r.job_name.isSome = true) ∨
      (r.upload_time.isNone = true ∧ r.job_name.isNone = true) ∨
      r.file_name ∈ (upload_videos uploadTime submitJob bucket localFiles cfg).errors) ∧
    (∀ r ∈ (upload_videos uploadTime submitJob bucket localFiles cfg).cfg.files,
      r.job_name.isSome = true → r.upload_time.isSome = true) := by
  have hmid : ∀ r ∈ cfg.files ++ (uploadLoop uploadTime bucket cfg localFiles).1,
      r.upload_time.isSome = true := by
    intro r hr
    rcases List.mem_append.mp hr with h | h
    · exact hinit r h
    · exact uploadLoop_new_records_uploaded uploadTime bucket cfg localFiles r h
  have hsub := submitLoop_records_spec submitJob
    (cfg.files ++ (uploadLoop uploadTime bucket cfg localFiles).1) hmid
  refine ⟨fun r hr _ => hmid r hr, ?_, ?_⟩
  · intro r hr
    rw [upload_videos_eq] at hr
    rcases hsub r hr with ⟨h1, h2 | h2⟩
    · exact Or.inl ⟨h1, h2⟩
    · refine Or.inr (Or.inr ?_)
      rw [upload_videos_eq]
      exact List.mem_append_right _ h2
  · intro r hr _
    rw [upload_videos_eq] at hr
    exact (hsub r hr).1

/-- C6 witness: a fresh state with one local file, both oracles
succeeding — the resulting record (upload duration and job identifier
both present) satisfies the invariant. -/
theorem upload_videos_record_invariant_witness :
    ({ file_name := "a.mp4", file_size := 5
       media_uri := "s3://b/transcriptions/a.mp4"
       output_key := outputKeyOf "a.mp4"
       upload_time := some 1, job_name := some "j"
       start_time := some "s" } : FileRec).upload_time.isSome = true := by
  have h := (upload_videos_record_invariant (fun _ => some 1)
    (fun _ => some ("j", "s")) "b" [("a.mp4", 5)] ⟨some "b", []⟩
    (by intro r hr; cases hr)).2.2
  exact h _ (by exact List.mem_singleton.mpr rfl) rfl

/-- C10: when the remote store reports the bucket already exists,
`create_s3_bucket` returns without error and leaves the state document
unchanged; `bucket_name` is persisted only on the successful-creation
path, so a state that had no `bucket_name` still has none after the
tolerated "already exists" outcome. -/
theorem create_s3_bucket_already_exists (bucket : String) (cfg : Config)
    (h : cfg.bucket_name = none) :
    create_s3_bucket CreateBucketResult.bucketAlreadyExists bucket cfg
      = Except.ok cfg ∧
    (∀ cfg', create_s3_bucket CreateBucketResult.bucketAlreadyExists bucket cfg
      = Except.ok cfg' → cfg'.bucket_name = none) ∧
    create_s3_bucket CreateBucketResult.created bucket cfg
      = Except.ok { cfg with bucket_name := some bucket } := by
  refine ⟨rfl, ?_, rfl⟩
  intro cfg' h'
  have h2 : (Except.ok cfg : Except String Config) = Except.ok cfg' := h'
  injection h2 with h3
  rw [← h3]
  exact h

/-- C10 witness: a state with no bucket name, the "already exists"
outcome — no error, and still no bucket name recorded. -/
theorem create_s3_bucket_already_exists_witness :
    create_s3_bucket CreateBucketResult.bucketAlreadyExists "b" ⟨none, []⟩
      = Except.ok ⟨none, []⟩ ∧
    (⟨none, []⟩ : Config).bucket_name = none :=
  ⟨(create_s3_bucket_already_exists "b" ⟨none, []⟩ rfl).1,
   (create_s3_bucket_already_exists "b" ⟨none, []⟩ rfl).2.1 ⟨none, []⟩ rfl⟩

/-! ## Claim theorems: generation-stage batch -/

/-- C2 counterexample: two transcripts, the tool fails to produce its
output artifact for the first.  The batch does not log-and-continue: the
relocation raises, the whole invocation aborts as an exception carrying
`"a"`, the second transcript is never processed (no result for it), and
the scratch files `20_a.md`, `30_analysis_a.md` are left behind — the
numeric-prefix cleanup never ran for the failed item. -/
theorem summarize_batch_abort_counterexample :
    summarizeBatch (fun t => t != "a") ["a", "b"] ⟨[], []⟩
      = Except.error ("a", ⟨["20_a.md", "30_analysis_a.md"], []⟩) := rfl

/-- C2 amended: in a Generation Stage batch, if the external tool fails to
produce the expected output artifact for one subject file, the relocation
step raises an uncaught exception naming that file and the whole batch
aborts — the remaining subject files are not processed, and the scratch
files with numeric prefixes written for the failed item remain (cleanup
only runs after a successful relocation), so a failed item does leave
residue. -/
theorem summarize_batch_abort (toolOk : String → Bool) (t : String)
    (ts : List String) (s : GenState) (hfail : toolOk t = false)
    (hclean : ailly_output t ∉ s.scratch) :
    ∃ s' : GenState,
      summarizeBatch toolOk (t :: ts) s = Except.error (t, s') ∧
      ("20_" ++ t ++ ".md") ∈ s'.scratch ∧
      ("30_analysis_" ++ t ++ ".md") ∈ s'.scratch ∧
      s'.results = s.results := by
  refine ⟨{ s with scratch :=
    s.scratch ++ ["20_" ++ t ++ ".md", "30_analysis_" ++ t ++ ".md"] }, ?_, ?_, ?_, rfl⟩
  · show (match summarizeOne (toolOk t) t s with
      | Except.ok s2 => summarizeBatch toolOk ts s2
      | Except.error e => Except.error e) = _
    rw [hfail, summarizeOne_fails t s hclean]
  · exact List.mem_append_right _ (List.mem_cons_self _ _)
  · exact List.mem_append_right _ (List.mem_cons_of_mem _ (List.mem_cons_self _ _))

/-- C2 witness: the amended theorem at a concrete two-item batch with the
tool failing on the first item. -/
theorem summarize_batch_abort_witness :
    ∃ s' : GenState,
      summarizeBatch (fun _ => false) ["a", "b"] ⟨[], []⟩ = Except.error ("a", s') ∧
      ("20_" ++ "a" ++ ".md") ∈ s'.scratch ∧
      ("30_analysis_" ++ "a" ++ ".md") ∈ s'.scratch ∧
      s'.results = (⟨[], []⟩ : GenState).results :=
  summarize_batch_abort (fun _ => false) "a" ["b"] ⟨[], []⟩ rfl (by simp)

end UxrAnalysis
